import Mathlib

/-!
Shallow embedding of `src/questions/aggregate_data.py` (the aggregation
pipeline of CoconutBigNut/cvut-otazky).

The filesystem is a tree of named entries; file contents are byte lists.
Python's `json` parser and the PIL codecs are external libraries and are
modelled by an `Env` record of (possibly failing) functions; everything
the repository's own code does — traversal order, filtering, selection,
dict updates, base64, data-URI assembly, logging, exception flow — is
translated concretely from the source.  `print` calls are collected into
a log list; an uncaught Python exception is `Except.error ()`, and in
that case the output file is never written (the document only exists in
the `Except.ok` branch, matching the source, which opens the output file
only after every subject has been processed).
-/

namespace CvutOtazky

/-- Byte sequences: file contents are lists of byte values. -/
abbrev Bytes := List Nat

/-- JSON values as produced by Python's `json.load`; objects keep insertion
order, as Python dicts do. -/
inductive JVal where
  | str : String → JVal
  | num : Int → JVal
  | bool : Bool → JVal
  | null : JVal
  | arr : List JVal → JVal
  | obj : List (String × JVal) → JVal
  deriving Repr

/-- Python dict assignment `d[k] = v`: overwrite in place keeping the key's
position, or append when the key is new. -/
def setKey : List (String × JVal) → String → JVal → List (String × JVal)
  | [], k, v => [(k, v)]
  | (k', v') :: rest, k, v =>
    if k' = k then (k, v) :: rest else (k', v') :: setKey rest k v

/-- First value bound to a key in an object, if any. -/
def getKey : List (String × JVal) → String → Option JVal
  | [], _ => none
  | (k', v') :: rest, k => if k' = k then some v' else getKey rest k

/-- Python `d.get(k)`: `None` when the key is absent; on a non-dict value the
attribute lookup raises (uncaught in the source). -/
def jGet : JVal → String → Except Unit JVal
  | .obj o, k => .ok ((getKey o k).getD .null)
  | _, _ => .error ()

/-- Python dict `d[k] = v`: raises on a non-dict value (uncaught in the source). -/
def jSet : JVal → String → JVal → Except Unit JVal
  | .obj o, k, v => .ok (.obj (setKey o k v))
  | _, _, _ => .error ()

/-- A filesystem entry: a regular file with its bytes, or a directory with
its children in directory-listing order. -/
inductive Entry where
  | file : String → Bytes → Entry
  | dir : String → List Entry → Entry
  deriving Repr

def Entry.name : Entry → String
  | .file n _ => n
  | .dir n _ => n

def Entry.isDir : Entry → Bool
  | .file _ _ => false
  | .dir _ _ => true

/-- Python `(p / name).exists()`-style lookup: the child with the given name. -/
def lookup (es : List Entry) (n : String) : Option Entry :=
  es.find? (fun e => e.name == n)

/-- ASCII lower-casing of one character, as Python's `str.lower` acts on the
names appearing here. -/
def lowerChar (c : Char) : Char :=
  if 65 ≤ c.toNat ∧ c.toNat ≤ 90 then Char.ofNat (c.toNat + 32) else c

/-- Python `s.lower()`. -/
def pyLower (s : String) : String := String.mk (s.toList.map lowerChar)

/-- Character-list version of prefix testing. -/
def charsPre : List Char → List Char → Bool
  | [], _ => true
  | _ :: _, [] => false
  | a :: as, b :: bs => a == b && charsPre as bs

/-- Python `s.startswith(pre)`. -/
def pyStarts (s pre : String) : Bool := charsPre pre.toList s.toList

/-- Lexicographic comparison of character lists by code point. -/
def charsLe : List Char → List Char → Bool
  | [], _ => true
  | _ :: _, [] => false
  | a :: as, b :: bs =>
    if a.toNat = b.toNat then charsLe as bs else Nat.blt a.toNat b.toNat

/-- String comparison as `sorted` compares paths. -/
def strLe (a b : String) : Bool := charsLe a.toList b.toList

/-- Index of the last `'.'` in a character list, if any. -/
def lastDot : List Char → Option Nat
  | [] => none
  | c :: cs =>
    match lastDot cs with
    | some i => some (i + 1)
    | none => if c = '.' then some 0 else none

/-- Python `pathlib.PurePath.suffix`: the substring from the last dot, but only when
that dot is neither the first nor the last character of the name. -/
def pathSuffix (name : String) : String :=
  match lastDot name.toList with
  | some i =>
    if 0 < i ∧ i + 1 < name.toList.length then String.mk (name.toList.drop i)
    else ""
  | none => ""

/-- Insert an entry into a name-sorted list, keeping it stable. -/
def insertByName (x : Entry) : List Entry → List Entry
  | [] => [x]
  | y :: ys => if strLe x.name y.name then x :: y :: ys else y :: insertByName x ys

/-- Python `sorted(path.iterdir())`: entries sorted by name. -/
def sortByName : List Entry → List Entry
  | [] => []
  | x :: xs => insertByName x (sortByName xs)

/-- The standard base64 alphabet. -/
def b64chars : List Char :=
  "ABCDEFGHIJKLMNOPQRSTUVWXYZabcdefghijklmnopqrstuvwxyz0123456789+/".toList

def b64c (n : Nat) : Char := b64chars.getD n 'A'

/-- Python `base64.b64encode(..).decode('utf-8')`: standard base64 with padding. -/
def b64encode : Bytes → String
  | [] => ""
  | [a] => String.mk [b64c (a / 4 % 64), b64c (a % 4 * 16), '=', '=']
  | [a, b] =>
    String.mk [b64c (a / 4 % 64), b64c (a % 4 * 16 + b / 16 % 16),
      b64c (b % 16 * 4), '=']
  | a :: b :: c :: rest =>
    String.mk [b64c (a / 4 % 64), b64c (a % 4 * 16 + b / 16 % 16),
      b64c (b % 16 * 4 + c / 64 % 4), b64c (c % 64)] ++ b64encode rest

/-- Python `mimetypes.guess_type`, modelled from the Python standard library's
`types_map` restricted to the extensions relevant here; keyed on the
lower-cased path suffix, `none` when unknown. -/
def guessMime (name : String) : Option String :=
  let s := pyLower (pathSuffix name)
  if s = ".png" then some "image/png"
  else if s = ".jpg" then some "image/jpeg"
  else if s = ".jpeg" then some "image/jpeg"
  else if s = ".svg" then some "image/svg+xml"
  else if s = ".webp" then some "image/webp"
  else none

/-- A decoded PIL image: its detected format (PIL's `.format`, `None` when
undetected) and its decoded pixel data, kept abstract. -/
structure PILImage where
  format : Option String
  data : Bytes
  deriving Repr

/-- External library behaviour the program calls into: the JSON parser and
the PIL codecs (each may fail, which in Python is a raised exception). -/
structure Env where
  jsonLoad : Bytes → Except Unit JVal
  imageOpen : Bytes → Except Unit PILImage
  saveWebp : PILImage → Nat → Except Unit Bytes
  saveOpt : PILImage → String → Except Unit Bytes

/-- The configuration surface of `aggregate_data`. -/
structure Config where
  image_base_url : Option String
  embed_images : Bool
  quality : Nat

/-- Python `s.rstrip('/')`: drop every trailing slash. -/
def rstripSlashes (s : String) : String :=
  String.mk ((s.toList.reverse.dropWhile (fun c => c = '/')).reverse)

/-- Python `fmt = img.format if img.format else 'PNG'` — Python truthiness: both
`None` and the empty string fall back to `PNG`. -/
def detectedFormat (img : PILImage) : String :=
  match img.format with
  | some s => if s = "" then "PNG" else s
  | none => "PNG"

/-- The set of extensions accepted as image candidates. -/
def imageExts : List String := [".png", ".jpg", ".jpeg", ".svg", ".webp"]

/-- The source's `[f for f in q_dir.iterdir() if f.suffix.lower() in image_extensions]` —
note the source applies no `is_file()` test, so directories whose name
carries an image extension qualify too. -/
def imageCandidates (children : List Entry) : List Entry :=
  children.filter (fun f => imageExts.contains (pyLower (pathSuffix f.name)))

/-- The source's `next((f for f in image_files if f.name.lower() == 'quiz.png'), image_files[0])`. -/
def selectMain (files : List Entry) (dflt : Entry) : Entry :=
  (files.find? (fun f => pyLower f.name == "quiz.png")).getD dflt

/-- The source's `'quizPhoto' if main_image.name.lower().startswith('quiz') else 'photo'`. -/
def roleField (main : Entry) : String :=
  if pyStarts (pyLower main.name) "quiz" then "quizPhoto" else "photo"

/-- The warning printed when image processing raises. -/
def warnMsg (imgPath : String) : String :=
  "Warning: Could not process image " ++ imgPath

/-- The data URI built in the raw-bytes fallback: mime guessed from the file
extension (Python renders a missing guess as the string `None`). -/
def fallbackUri (nm : String) (content : Bytes) : String :=
  "data:" ++ ((guessMime nm).getD "None") ++ ";base64," ++ b64encode content

/-- The embed-mode image pipeline — the `try`/`except` block of the source:
open with PIL; SVG suffix short-circuits to raw bytes; otherwise re-encode
(WebP below quality 100, else original format with `optimize`); any codec
failure falls back to raw bytes with a guessed mime type after printing a
warning.  When the selected entry is a directory, both `Image.open` and the
fallback `open` raise, so the warning is printed and the error escapes. -/
def materializeEmbed (env : Env) (quality : Nat) (imgPath : String) (main : Entry) :
    List String × Except Unit String :=
  match main with
  | .dir _ _ => ([warnMsg imgPath], .error ())
  | .file nm content =>
    match env.imageOpen content with
    | .error _ => ([warnMsg imgPath], .ok (fallbackUri nm content))
    | .ok img =>
      if pyLower (pathSuffix nm) = ".svg" then
        ([], .ok ("data:image/svg+xml;base64," ++ b64encode content))
      else if quality < 100 then
        match env.saveWebp img quality with
        | .ok bs => ([], .ok ("data:image/webp;base64," ++ b64encode bs))
        | .error _ => ([warnMsg imgPath], .ok (fallbackUri nm content))
      else
        match env.saveOpt img (detectedFormat img) with
        | .ok bs =>
          ([], .ok ("data:image/" ++ pyLower (detectedFormat img) ++ ";base64,"
            ++ b64encode bs))
        | .error _ => ([warnMsg imgPath], .ok (fallbackUri nm content))

/-- Reference-mode value: `base_url.rstrip('/') + '/' + rel` under a truthy
base URL, the bare relative path otherwise. -/
def refValue (base : Option String) (rel : String) : String :=
  match base with
  | some b => if b = "" then rel else rstripSlashes b ++ "/" ++ rel
  | none => rel

/-- The `if image_files:` block: detect candidates, select the main image,
materialize it per mode, and store it under the role field. -/
def attachImage (env : Env) (cfg : Config) (subjName qName qPath : String)
    (q_data : JVal) (children : List Entry) : List String × Except Unit JVal :=
  match imageCandidates children with
  | [] => ([], .ok q_data)
  | f0 :: rest =>
    let main := selectMain (f0 :: rest) f0
    if cfg.embed_images then
      match materializeEmbed env cfg.quality (qPath ++ "/" ++ main.name) main with
      | (lg, .error _) => (lg, .error ())
      | (lg, .ok value) => (lg, jSet q_data (roleField main) (.str value))
    else
      let rel := subjName ++ "/questions/" ++ qName ++ "/" ++ main.name
      ([], jSet q_data (roleField main) (.str (refValue cfg.image_base_url rel)))

/-- One iteration of the question loop: non-directories are skipped, a
directory without `question.json` is skipped silently, malformed JSON is
logged and skipped, and otherwise `id`, `subjectCode` and the image field are
attached.  `Except.error` is an uncaught exception (a directory named
`question.json`, a non-dict record, or an embed failure on a directory). -/
def processQuestion (env : Env) (cfg : Config) (subjInfo : JVal)
    (subjName qsubPath : String) (e : Entry) : List String × Except Unit (Option JVal) :=
  match e with
  | .file _ _ => ([], .ok none)
  | .dir qName qchildren =>
    match lookup qchildren "question.json" with
    | none => ([], .ok none)
    | some (.dir _ _) => ([], .error ())
    | some (.file _ c) =>
      match env.jsonLoad c with
      | .error _ =>
        (["Error decoding JSON in " ++ qsubPath ++ "/" ++ qName ++ "/question.json"],
          .ok none)
      | .ok v =>
        match jSet v "id" (.str qName) with
        | .error _ => ([], .error ())
        | .ok v1 =>
          match jGet subjInfo "code" with
          | .error _ => ([], .error ())
          | .ok code =>
            match jSet v1 "subjectCode" code with
            | .error _ => ([], .error ())
            | .ok v2 =>
              match attachImage env cfg subjName qName (qsubPath ++ "/" ++ qName) v2 qchildren with
              | (lg, .error _) => (lg, .error ())
              | (lg, .ok v3) => (lg, .ok (some v3))

/-- Fold of the question loop over an already-sorted listing; an uncaught
exception aborts the remainder, keeping the logs printed so far. -/
def processQuestionsGo (env : Env) (cfg : Config) (subjInfo : JVal)
    (subjName qsubPath : String) : List Entry → List String × Except Unit (List JVal)
  | [] => ([], .ok [])
  | e :: rest =>
    match processQuestion env cfg subjInfo subjName qsubPath e with
    | (lg, .error _) => (lg, .error ())
    | (lg, .ok rec?) =>
      match processQuestionsGo env cfg subjInfo subjName qsubPath rest with
      | (lg2, .error _) => (lg ++ lg2, .error ())
      | (lg2, .ok qs) =>
        (lg ++ lg2, .ok (match rec? with | some q => q :: qs | none => qs))

/-- The source's `for q_dir in sorted(questions_subdir.iterdir())` loop. -/
def processQuestions (env : Env) (cfg : Config) (subjInfo : JVal)
    (subjName qsubPath : String) (children : List Entry) :
    List String × Except Unit (List JVal) :=
  processQuestionsGo env cfg subjInfo subjName qsubPath (sortByName children)

/-- The fixed exclusion set of known non-subject folders. -/
def excludedNames : List String := ["web", "scripts", "misc"]

/-- One iteration of the subject loop: skip non-directories, hidden and
excluded names; warn when `subject.json` is missing next to a `questions`
folder; fail fast on malformed `subject.json`; otherwise process the
questions folder (when present and a directory) and attach the list. -/
def processSubject (env : Env) (cfg : Config) (rootPath : String) (e : Entry) :
    List String × Except Unit (Option JVal) :=
  match e with
  | .file _ _ => ([], .ok none)
  | .dir name children =>
    if pyStarts name "." || excludedNames.contains name then ([], .ok none)
    else
      match lookup children "subject.json" with
      | none =>
        if (lookup children "questions").isSome then
          (["Warning: No subject.json found in " ++ rootPath ++ "/" ++ name], .ok none)
        else ([], .ok none)
      | some (.dir _ _) => ([], .error ())
      | some (.file _ c) =>
        match env.jsonLoad c with
        | .error _ => ([], .error ())
        | .ok subjInfo =>
          match
            (match lookup children "questions" with
             | some (.dir _ qchildren) =>
               processQuestions env cfg subjInfo name
                 (rootPath ++ "/" ++ name ++ "/questions") qchildren
             | _ => ([], .ok []))
          with
          | (lg, .error _) => (lg, .error ())
          | (lg, .ok qs) =>
            match jSet subjInfo "questions" (.arr qs) with
            | .error _ => (lg, .error ())
            | .ok s => (lg, .ok (some s))

/-- Fold of the subject loop over an already-sorted listing. -/
def processSubjectsGo (env : Env) (cfg : Config) (rootPath : String) :
    List Entry → List String × Except Unit (List JVal)
  | [] => ([], .ok [])
  | e :: rest =>
    match processSubject env cfg rootPath e with
    | (lg, .error _) => (lg, .error ())
    | (lg, .ok s?) =>
      match processSubjectsGo env cfg rootPath rest with
      | (lg2, .error _) => (lg ++ lg2, .error ())
      | (lg2, .ok subs) =>
        (lg ++ lg2, .ok (match s? with | some s => s :: subs | none => subs))

/-- Python `Path(output_file).name`: the last path component. -/
def pathName (s : String) : String :=
  String.mk ((s.toList.reverse.takeWhile (fun c => c ≠ '/')).reverse)

/-- The source's `aggregate_data(questions_dir, output_file, image_base_url, embed_images,
quality)`: walk the sorted subject listing, assemble the document, and write
it; `Except.error` is a run aborted by an uncaught exception, in which case
no output file is written. -/
def aggregate_data (env : Env) (cfg : Config) (questions_dir : String)
    (root : List Entry) (output_file : String) : List String × Except Unit JVal :=
  match processSubjectsGo env cfg questions_dir (sortByName root) with
  | (lg, .error _) => (lg, .error ())
  | (lg, .ok subs) =>
    (lg ++ ["Successfully generated " ++ output_file ++ " with "
        ++ toString subs.length ++ " subjects."],
      .ok (.obj [("subjects", .arr subs),
                 ("generatedAt", .str (pathName output_file)),
                 ("version", .str "1.0.0")]))

end CvutOtazky
namespace CvutOtazky

theorem getKey_setKey_same (o : List (String × JVal)) (k : String) (v : JVal) :
    getKey (setKey o k v) k = some v := by
  induction o with
  | nil => simp [setKey, getKey]
  | cons p rest ih =>
    obtain ⟨k', v'⟩ := p
    by_cases h : k' = k
    · simp [setKey, getKey, h]
    · simp [setKey, getKey, h, ih]

theorem getKey_setKey_ne (o : List (String × JVal)) (k k' : String) (v : JVal)
    (h : k' ≠ k) : getKey (setKey o k v) k' = getKey o k' := by
  induction o with
  | nil => simp [setKey, getKey, Ne.symm h]
  | cons p rest ih =>
    obtain ⟨k₀, v₀⟩ := p
    by_cases h0 : k₀ = k
    · subst h0
      simp [setKey, getKey, h, Ne.symm h]
    · by_cases h1 : k₀ = k'
      · subst h1
        simp [setKey, getKey, h0, getKey]
      · simp [setKey, getKey, h0, h1, ih]

theorem mem_insertByName (a x : Entry) (l : List Entry) :
    a ∈ insertByName x l ↔ a = x ∨ a ∈ l := by
  induction l with
  | nil => simp [insertByName]
  | cons y ys ih =>
    cases h : strLe x.name y.name
    · simp [insertByName, h, ih]
      tauto
    · simp [insertByName, h]

theorem mem_sortByName (a : Entry) (l : List Entry) :
    a ∈ sortByName l ↔ a ∈ l := by
  induction l with
  | nil => simp [sortByName]
  | cons x xs ih => simp [sortByName, mem_insertByName, ih]

end CvutOtazky
namespace CvutOtazky

/-- An environment whose external calls all fail; reference mode never
invokes any of them. -/
def failEnv : Env where
  jsonLoad _ := .error ()
  imageOpen _ := .error ()
  saveWebp _ _ := .error ()
  saveOpt _ _ := .error ()

/-- C3: in reference mode the stored value is the base URL with trailing
slashes stripped, then "/", then subject/questions/question/filename; the
bare relative path when no base URL is configured; and the two concrete base
URLs of the claim both yield https://x/y/math/questions/q1/quiz.png. -/
theorem c3_reference_mode_url (env : Env) (cfg : Config)
    (subjName qName qPath : String) (o : List (String × JVal))
    (children : List Entry) (f0 : Entry) (rest : List Entry)
    (hemb : cfg.embed_images = false)
    (hc : imageCandidates children = f0 :: rest) :
    (∀ b, cfg.image_base_url = some b → b ≠ "" →
      attachImage env cfg subjName qName qPath (.obj o) children =
        ([], .ok (.obj (setKey o (roleField (selectMain (f0 :: rest) f0))
          (.str (rstripSlashes b ++ "/" ++ (subjName ++ "/questions/" ++ qName
            ++ "/" ++ (selectMain (f0 :: rest) f0).name)))))))
    ∧ (cfg.image_base_url = none →
      attachImage env cfg subjName qName qPath (.obj o) children =
        ([], .ok (.obj (setKey o (roleField (selectMain (f0 :: rest) f0))
          (.str (subjName ++ "/questions/" ++ qName ++ "/"
            ++ (selectMain (f0 :: rest) f0).name))))))
    ∧ attachImage failEnv ⟨some "https://x/y", false, 100⟩ "math" "q1" "p"
        (.obj []) [.file "quiz.png" [1]] =
        ([], .ok (.obj [("quizPhoto", .str "https://x/y/math/questions/q1/quiz.png")]))
    ∧ attachImage failEnv ⟨some "https://x/y/", false, 100⟩ "math" "q1" "p"
        (.obj []) [.file "quiz.png" [1]] =
        ([], .ok (.obj [("quizPhoto", .str "https://x/y/math/questions/q1/quiz.png")])) := by
  refine ⟨?_, ?_, by rfl, by rfl⟩
  · intro b hb hbne
    simp [attachImage, hc, hemb, hb, refValue, hbne, jSet]
  · intro hb
    simp [attachImage, hc, hemb, hb, refValue, jSet]

theorem c3_witness :
    attachImage failEnv ⟨some "https://host/base//", false, 100⟩ "math" "q1" "p"
      (.obj []) [.file "a.png" [1]] =
      ([], .ok (.obj [("photo", .str "https://host/base/math/questions/q1/a.png")])) :=
  (c3_reference_mode_url failEnv ⟨some "https://host/base//", false, 100⟩
    "math" "q1" "p" [] [.file "a.png" [1]] (.file "a.png" [1]) [] rfl rfl).1
    "https://host/base//" rfl (by decide)

/-- C5: when the candidate set is non-empty the selected main image is a
member of it; it is one whose lower-cased name equals quiz.png whenever any
candidate has that name, and the first candidate in listing order otherwise;
an empty candidate set attaches nothing, logs nothing and raises nothing. -/
theorem c5_main_image_selection :
    (∀ (f0 : Entry) (rest : List Entry), selectMain (f0 :: rest) f0 ∈ f0 :: rest)
    ∧ (∀ (f0 : Entry) (rest : List Entry),
        (f0 :: rest).any (fun f => pyLower f.name == "quiz.png") = true →
        pyLower (selectMain (f0 :: rest) f0).name = "quiz.png")
    ∧ (∀ (f0 : Entry) (rest : List Entry),
        (f0 :: rest).any (fun f => pyLower f.name == "quiz.png") = false →
        selectMain (f0 :: rest) f0 = f0)
    ∧ (∀ (env : Env) (cfg : Config) (sn qn qp : String) (qd : JVal)
        (children : List Entry), imageCandidates children = [] →
        attachImage env cfg sn qn qp qd children = ([], .ok qd)) := by
  refine ⟨?_, ?_, ?_, ?_⟩
  · intro f0 rest
    unfold selectMain
    cases h : (f0 :: rest).find? (fun f => pyLower f.name == "quiz.png") with
    | none => simp
    | some y => simpa using List.mem_of_find?_eq_some h
  · intro f0 rest hany
    unfold selectMain
    cases h : (f0 :: rest).find? (fun f => pyLower f.name == "quiz.png") with
    | none =>
      exfalso
      rcases List.any_eq_true.mp hany with ⟨x, hx, hpx⟩
      have := List.find?_eq_none.mp h x hx
      simp_all
    | some y =>
      have := List.find?_some h
      simpa using this
  · intro f0 rest hany
    unfold selectMain
    cases h : (f0 :: rest).find? (fun f => pyLower f.name == "quiz.png") with
    | none => simp
    | some y =>
      exfalso
      have hy := List.find?_some h
      have hmem := List.mem_of_find?_eq_some h
      have : (f0 :: rest).any (fun f => pyLower f.name == "quiz.png") = true :=
        List.any_eq_true.mpr ⟨y, hmem, hy⟩
      simp [this] at hany
  · intro env cfg sn qn qp qd children hc
    simp [attachImage, hc]

theorem c5_witness :
    (selectMain [Entry.file "a.png" [], Entry.file "QUIZ.png" []] (Entry.file "a.png" [])
      ∈ [Entry.file "a.png" [], Entry.file "QUIZ.png" []])
    ∧ pyLower (selectMain [Entry.file "a.png" [], Entry.file "QUIZ.png" []]
        (Entry.file "a.png" [])).name = "quiz.png"
    ∧ attachImage failEnv ⟨none, true, 50⟩ "s" "q" "p" (.obj []) [Entry.file "notes.txt" []]
        = ([], .ok (.obj [])) :=
  ⟨c5_main_image_selection.1 (Entry.file "a.png" []) [Entry.file "QUIZ.png" []],
   c5_main_image_selection.2.1 (Entry.file "a.png" []) [Entry.file "QUIZ.png" []] (by decide),
   c5_main_image_selection.2.2.2 failEnv ⟨none, true, 50⟩ "s" "q" "p" (.obj [])
     [Entry.file "notes.txt" []] rfl⟩

/-- C9 counterexample: a subdirectory named x.png is an image candidate —
the source filters q_dir.iterdir() by suffix alone, with no is_file test, so
a non-regular-file entry can be (and here is) a candidate, contradicting the
claim that such entries are never candidates. -/
theorem c9_counterexample :
    imageCandidates [Entry.dir "x.png" []] = [Entry.dir "x.png" []]
    ∧ (Entry.dir "x.png" []).isDir = true := ⟨rfl, rfl⟩

/-- C9 amended: the candidate set is exactly the set of entries — regular
files or not — whose path suffix, lower-cased, is one of .png, .jpg, .jpeg,
.svg, .webp, kept in directory-listing order. -/
theorem c9_candidate_set (children : List Entry) (e : Entry) :
    e ∈ imageCandidates children ↔
      e ∈ children ∧ pyLower (pathSuffix e.name) ∈ imageExts := by
  simp [imageCandidates, List.mem_filter]

/-- C10: a question directory with no question.json entry is omitted with no
log line and no record, and the run continues; by contrast a subject
directory lacking subject.json next to a questions folder produces a
warning naming it (and is likewise skipped without aborting). -/
theorem c10_missing_question_json_silent :
    (∀ (env : Env) (cfg : Config) (si : JVal) (sn qp qName : String)
        (qchildren : List Entry), lookup qchildren "question.json" = none →
        processQuestion env cfg si sn qp (.dir qName qchildren) = ([], .ok none))
    ∧ (∀ (env : Env) (cfg : Config) (rp nm : String) (children : List Entry),
        (pyStarts nm "." || excludedNames.contains nm) = false →
        lookup children "subject.json" = none →
        (lookup children "questions").isSome = true →
        processSubject env cfg rp (.dir nm children) =
          (["Warning: No subject.json found in " ++ rp ++ "/" ++ nm], .ok none)) := by
  constructor
  · intro env cfg si sn qp qName qchildren h
    simp [processQuestion, h]
  · intro env cfg rp nm children hskip hsub hq
    rw [Bool.or_eq_false_iff] at hskip
    obtain ⟨h1, h2⟩ := hskip
    simp [processSubject, h1, h2, hsub, hq]
    simpa using h2

theorem c10_witness :
    processQuestion failEnv ⟨none, false, 100⟩ (.obj []) "s" "p"
      (.dir "q1" [Entry.file "readme.md" []]) = ([], .ok none)
    ∧ processSubject failEnv ⟨none, false, 100⟩ "questions"
        (.dir "math" [Entry.dir "questions" []]) =
        (["Warning: No subject.json found in questions/math"], .ok none) :=
  ⟨c10_missing_question_json_silent.1 failEnv ⟨none, false, 100⟩ (.obj []) "s" "p"
      "q1" [Entry.file "readme.md" []] rfl,
   c10_missing_question_json_silent.2 failEnv ⟨none, false, 100⟩ "questions"
      "math" [Entry.dir "questions" []] rfl rfl rfl⟩

end CvutOtazky
namespace CvutOtazky

/-- UTF-8-agnostic byte view of the ASCII texts used in concrete scenarios. -/
def strBytes (s : String) : Bytes := s.toList.map Char.toNat

/-- A concrete fragment of Python's json parser: parses exactly the three
documents used in the concrete scenarios below, the way json.load would. -/
def demoParse (c : Bytes) : Except Unit JVal :=
  if c == strBytes "\x7b\"code\": \"MAT\"\x7d" then .ok (.obj [("code", .str "MAT")])
  else if c == strBytes "\x7b\"text\": \"2+2?\"\x7d" then .ok (.obj [("text", .str "2+2?")])
  else if c == strBytes "\x7b\"photo\": \"a\", \"quizPhoto\": \"b\"\x7d" then
    .ok (.obj [("photo", .str "a"), ("quizPhoto", .str "b")])
  else .error ()

/-- Concrete environment for the counterexample runs: the demo JSON parser
together with PIL codecs that fail (the image entries involved are
directories, which PIL cannot open anyway). -/
def demoEnv : Env where
  jsonLoad := demoParse
  imageOpen _ := .error ()
  saveWebp _ _ := .error ()
  saveOpt _ _ := .error ()

/-- C1: embed mode, successfully decoded raster image (extension png, jpg,
jpeg or webp): below quality 100 the payload is the WebP re-encoding at that
quality with mime image/webp whatever the source format; at quality 100 the
payload is the optimize re-save in the detected format (PNG when detection
fails) and the mime is derived from that format. -/
theorem c1_embed_raster_encoding (env : Env) (q : Nat) (path nm : String)
    (content : Bytes) (img : PILImage)
    (hopen : env.imageOpen content = .ok img)
    (hext : pyLower (pathSuffix nm) ∈ [".png", ".jpg", ".jpeg", ".webp"]) :
    (∀ bs, q < 100 → env.saveWebp img q = .ok bs →
      materializeEmbed env q path (.file nm content) =
        ([], .ok ("data:image/webp;base64," ++ b64encode bs)))
    ∧ (∀ bs, q = 100 → env.saveOpt img (detectedFormat img) = .ok bs →
      materializeEmbed env q path (.file nm content) =
        ([], .ok ("data:image/" ++ pyLower (detectedFormat img) ++ ";base64,"
          ++ b64encode bs)))
    ∧ (img.format = none → detectedFormat img = "PNG") := by
  have hsvg : ¬ pyLower (pathSuffix nm) = ".svg" := by
    simp only [List.mem_cons, List.not_mem_nil, or_false] at hext
    rcases hext with h | h | h | h <;> (rw [h]; decide)
  refine ⟨?_, ?_, ?_⟩
  · intro bs hq hs
    simp [materializeEmbed, hopen, hsvg, hq, hs]
  · intro bs hq hs
    subst hq
    simp [materializeEmbed, hopen, hsvg, hs]
  · intro h
    simp [detectedFormat, h]

theorem c1_witness :
    (let env : Env := ⟨fun _ => .error (), fun _ => .ok ⟨some "JPEG", [7]⟩,
      fun _ _ => .ok [1, 2], fun _ _ => .ok [3]⟩;
     materializeEmbed env 50 "p/a.jpg" (.file "a.jpg" [9]) =
        ([], .ok ("data:image/webp;base64," ++ b64encode [1, 2]))
     ∧ materializeEmbed env 100 "p/a.jpg" (.file "a.jpg" [9]) =
        ([], .ok ("data:image/jpeg;base64," ++ b64encode [3]))) :=
  ⟨(c1_embed_raster_encoding _ 50 "p/a.jpg" "a.jpg" [9] ⟨some "JPEG", [7]⟩ rfl
      (by decide)).1 [1, 2] (by decide) rfl,
   (c1_embed_raster_encoding _ 100 "p/a.jpg" "a.jpg" [9] ⟨some "JPEG", [7]⟩ rfl
      (by decide)).2.1 [3] rfl rfl⟩

/-- C6 counterexample: a directory named fig.svg is the selected image (it is
the sole candidate — candidacy checks the suffix only), PIL raises on it, and
the raw-bytes fallback raises again reading a directory, so the run aborts
with no value produced — contradicting the claim that every selected image
with an .svg extension yields a data URI. -/
theorem c6_counterexample :
    aggregate_data demoEnv ⟨none, true, 100⟩ "questions"
      [Entry.dir "math" [Entry.file "subject.json" (strBytes "\x7b\"code\": \"MAT\"\x7d"),
        Entry.dir "questions" [Entry.dir "q1"
          [Entry.file "question.json" (strBytes "\x7b\"text\": \"2+2?\"\x7d"),
           Entry.dir "fig.svg" []]]]] "o.json" =
      (["Warning: Could not process image questions/math/questions/q1/fig.svg"], .error ())
    ∧ pyLower (pathSuffix (Entry.dir "fig.svg" []).name) = ".svg"
    ∧ selectMain [Entry.dir "fig.svg" []] (Entry.dir "fig.svg" []) =
        Entry.dir "fig.svg" [] := ⟨rfl, rfl, rfl⟩

/-- C6 amended: for every selected image that is a regular file with
lower-cased extension .svg, the produced value is the data URI with mime
image/svg+xml over the base64 encoding of the file's raw bytes — whether PIL
opens the file (the SVG short-circuit) or raises on it (the raw fallback,
whose guessed mime for .svg is again image/svg+xml). -/
theorem c6_svg_raw_embed (env : Env) (q : Nat) (path nm : String) (content : Bytes)
    (hext : pyLower (pathSuffix nm) = ".svg") :
    (materializeEmbed env q path (.file nm content)).2 =
      .ok ("data:image/svg+xml;base64," ++ b64encode content) := by
  cases h : env.imageOpen content with
  | error e => simp [materializeEmbed, h, fallbackUri, guessMime, hext]
  | ok img => simp [materializeEmbed, h, hext]

theorem c6_witness :
    (materializeEmbed failEnv 100 "p/pic.SVG" (.file "pic.SVG" [60, 47, 62])).2 =
      .ok ("data:image/svg+xml;base64," ++ b64encode [60, 47, 62]) :=
  c6_svg_raw_embed failEnv 100 "p/pic.SVG" "pic.SVG" [60, 47, 62] rfl

/-- C2 counterexample: the selected image is a directory named quiz.png, so
decoding fails (IsADirectoryError); the warning is printed, but the fallback
open of the original path raises again — uncaught — and the run aborts: the
question gets no image field and no output is written, contradicting "the
run does not abort ... never results in a missing image field". -/
theorem c2_counterexample :
    aggregate_data demoEnv ⟨none, true, 100⟩ "questions"
      [Entry.dir "math" [Entry.file "subject.json" (strBytes "\x7b\"code\": \"MAT\"\x7d"),
        Entry.dir "questions" [Entry.dir "q1"
          [Entry.file "question.json" (strBytes "\x7b\"text\": \"2+2?\"\x7d"),
           Entry.dir "quiz.png" []]]]] "o.json" =
      (["Warning: Could not process image questions/math/questions/q1/quiz.png"],
        .error ()) := rfl

/-- C2 amended: when the selected image is a regular file and decoding or
re-encoding fails for any reason, the run does not abort: the warning naming
the failing file is printed, the original bytes are base64-encoded unmodified
under a mime type guessed from the extension, and the question's role field is
set to that degraded value — never left missing.  (When the selected entry is
a directory — possible since candidacy never checks file-ness — the fallback
read fails too and the run aborts, per the counterexample.) -/
theorem c2_embed_failure_fallback (env : Env) (cfg : Config)
    (subjName qName qPath nm : String) (content : Bytes)
    (o : List (String × JVal)) (children : List Entry) (f0 : Entry) (rest : List Entry)
    (hemb : cfg.embed_images = true)
    (hc : imageCandidates children = f0 :: rest)
    (hm : selectMain (f0 :: rest) f0 = .file nm content)
    (hfail : env.imageOpen content = .error () ∨
      ∃ img, env.imageOpen content = .ok img ∧ pyLower (pathSuffix nm) ≠ ".svg" ∧
        ((cfg.quality < 100 ∧ env.saveWebp img cfg.quality = .error ()) ∨
         (¬ cfg.quality < 100 ∧ env.saveOpt img (detectedFormat img) = .error ()))) :
    materializeEmbed env cfg.quality (qPath ++ "/" ++ nm) (.file nm content) =
      ([warnMsg (qPath ++ "/" ++ nm)], .ok (fallbackUri nm content))
    ∧ attachImage env cfg subjName qName qPath (.obj o) children =
      ([warnMsg (qPath ++ "/" ++ nm)],
        .ok (.obj (setKey o (roleField (.file nm content)) (.str (fallbackUri nm content)))))
    ∧ getKey (setKey o (roleField (.file nm content)) (.str (fallbackUri nm content)))
        (roleField (.file nm content)) = some (.str (fallbackUri nm content)) := by
  have hmat : materializeEmbed env cfg.quality (qPath ++ "/" ++ nm) (.file nm content) =
      ([warnMsg (qPath ++ "/" ++ nm)], .ok (fallbackUri nm content)) := by
    rcases hfail with h | ⟨img, himg, hsvg, hrest⟩
    · simp [materializeEmbed, h]
    · rcases hrest with ⟨hq, hs⟩ | ⟨hq, hs⟩
      · simp [materializeEmbed, himg, hsvg, hq, hs]
      · simp [materializeEmbed, himg, hsvg, hq, hs]
  refine ⟨hmat, ?_, getKey_setKey_same o _ _⟩
  simp [attachImage, hc, hemb, hm, Entry.name, hmat, jSet]

theorem c2_witness :
    attachImage failEnv ⟨none, true, 100⟩ "math" "q1" "questions/math/questions/q1"
      (.obj [("text", .str "t")]) [Entry.file "quiz.png" [1, 2, 3]] =
      (["Warning: Could not process image questions/math/questions/q1/quiz.png"],
        .ok (.obj [("text", .str "t"),
          ("quizPhoto", .str ("data:image/png;base64," ++ b64encode [1, 2, 3]))])) :=
  (c2_embed_failure_fallback failEnv ⟨none, true, 100⟩ "math" "q1"
    "questions/math/questions/q1" "quiz.png" [1, 2, 3] [("text", .str "t")]
    [Entry.file "quiz.png" [1, 2, 3]] (Entry.file "quiz.png" [1, 2, 3]) []
    rfl rfl rfl (Or.inl rfl)).2.1

/-- If one entry of the subject listing raises, the whole subject fold
raises. -/
theorem processSubjectsGo_error (env : Env) (cfg : Config) (rp : String)
    (l : List Entry) (e : Entry) (he : e ∈ l)
    (herr : (processSubject env cfg rp e).2 = .error ()) :
    (processSubjectsGo env cfg rp l).2 = .error () := by
  induction l with
  | nil => cases he
  | cons x xs ih =>
    rcases List.mem_cons.mp he with heq | hmem
    · subst heq
      rcases hx : processSubject env cfg rp e with ⟨lg, r⟩
      rw [hx] at herr
      simp only at herr
      subst herr
      simp [processSubjectsGo, hx]
    · rcases hx : processSubject env cfg rp x with ⟨lg, r⟩
      cases r with
      | error u => simp [processSubjectsGo, hx]
      | ok s? =>
        have := ih hmem
        rcases hgo : processSubjectsGo env cfg rp xs with ⟨lg2, r2⟩
        rw [hgo] at this
        simp only at this
        subst this
        simp [processSubjectsGo, hx, hgo]

/-- C7: any subject directory that survives the filters and whose
subject.json is a file failing to parse makes the whole run terminate with
the uncaught error: the result is Except.error, and since the output document
exists only in the Except.ok branch (the source opens the output file only
after the subject loop finishes), no output file is written. -/
theorem c7_malformed_subject_fails_fast (env : Env) (cfg : Config)
    (qdir out : String) (root : List Entry) (name : String)
    (children : List Entry) (fn : String) (c : Bytes)
    (hmem : (Entry.dir name children) ∈ root)
    (hskip : (pyStarts name "." || excludedNames.contains name) = false)
    (hlk : lookup children "subject.json" = some (.file fn c))
    (hbad : env.jsonLoad c = .error ()) :
    (aggregate_data env cfg qdir root out).2 = .error () := by
  have hsub : (processSubject env cfg qdir (.dir name children)).2 = .error () := by
    rw [Bool.or_eq_false_iff] at hskip
    obtain ⟨h1, h2⟩ := hskip
    have h2' : name ∉ excludedNames := by simpa using h2
    simp [processSubject, h1, h2, h2', hlk, hbad]
  have hmem' : (Entry.dir name children) ∈ sortByName root :=
    (mem_sortByName _ _).mpr hmem
  have hgo := processSubjectsGo_error env cfg qdir (sortByName root) _ hmem' hsub
  rcases hx : processSubjectsGo env cfg qdir (sortByName root) with ⟨lg, r⟩
  rw [hx] at hgo
  simp only at hgo
  subst hgo
  simp [aggregate_data, hx]

theorem c7_witness :
    (aggregate_data failEnv ⟨none, false, 100⟩ "questions"
      [Entry.dir "math" [Entry.file "subject.json" (strBytes "not json")]]
      "o.json").2 = .error () :=
  c7_malformed_subject_fails_fast failEnv ⟨none, false, 100⟩ "questions" "o.json"
    [Entry.dir "math" [Entry.file "subject.json" (strBytes "not json")]]
    "math" [Entry.file "subject.json" (strBytes "not json")] "subject.json"
    (strBytes "not json") (List.mem_singleton.mpr rfl) rfl rfl rfl

end CvutOtazky
namespace CvutOtazky

/-- Output shape of the image-attachment block on a dict record: either no
candidates and the record is untouched, or the role field was set to some
string value on top of the incoming record. -/
theorem attachImage_shape (env : Env) (cfg : Config) (sn qn qp : String)
    (o : List (String × JVal)) (children : List Entry) (q : List (String × JVal))
    (hok : (attachImage env cfg sn qn qp (.obj o) children).2 = .ok (.obj q)) :
    (imageCandidates children = [] ∧ q = o) ∨
    (∃ f0 rest value, imageCandidates children = f0 :: rest ∧
      q = setKey o (roleField (selectMain (f0 :: rest) f0)) (.str value)) := by
  unfold attachImage at hok
  cases hc : imageCandidates children with
  | nil =>
    rw [hc] at hok
    simp at hok
    exact Or.inl ⟨rfl, hok.symm⟩
  | cons f0 rest =>
    rw [hc] at hok
    right
    cases hemb : cfg.embed_images with
    | true =>
      rw [hemb] at hok
      simp only [if_true] at hok
      rcases hmat : materializeEmbed env cfg.quality
          (qp ++ "/" ++ (selectMain (f0 :: rest) f0).name)
          (selectMain (f0 :: rest) f0) with ⟨lg, r⟩
      rw [hmat] at hok
      cases r with
      | error u => simp at hok
      | ok value =>
        simp [jSet] at hok
        exact ⟨f0, rest, value, rfl, hok.symm⟩
    | false =>
      rw [hemb] at hok
      simp only [Bool.false_eq_true, if_false, jSet] at hok
      simp at hok
      exact ⟨f0, rest, _, rfl, hok.symm⟩

/-- C4 counterexample: a question.json that itself carries both photo and
quizPhoto passes through verbatim (the aggregator adds nothing when there is
no image), so the output question record contains both fields at once,
contradicting the claimed never-both invariant. -/
theorem c4_counterexample :
    aggregate_data demoEnv ⟨none, false, 100⟩ "questions"
      [Entry.dir "math" [Entry.file "subject.json" (strBytes "\x7b\"code\": \"MAT\"\x7d"),
        Entry.dir "questions" [Entry.dir "q1"
          [Entry.file "question.json"
            (strBytes "\x7b\"photo\": \"a\", \"quizPhoto\": \"b\"\x7d")]]]] "o.json" =
      (["Successfully generated o.json with 1 subjects."],
        .ok (.obj [("subjects", .arr [.obj [("code", .str "MAT"),
          ("questions", .arr [.obj [("photo", .str "a"), ("quizPhoto", .str "b"),
            ("id", .str "q1"), ("subjectCode", .str "MAT")]])]]),
          ("generatedAt", .str "o.json"), ("version", .str "1.0.0")]))
    ∧ getKey [("photo", .str "a"), ("quizPhoto", .str "b"),
        ("id", .str "q1"), ("subjectCode", .str "MAT")] "photo" = some (.str "a")
    ∧ getKey [("photo", .str "a"), ("quizPhoto", .str "b"),
        ("id", .str "q1"), ("subjectCode", .str "MAT")] "quizPhoto" = some (.str "b") :=
  ⟨rfl, rfl, rfl⟩

/-- C4 amended: for question records whose source object carries neither
photo nor quizPhoto (the reserved-keys assumption), at most one of the two is
present in the produced record; when candidates exist the set field is
quizPhoto exactly when the selected image's lower-cased name starts with
quiz, photo otherwise; with no candidates neither field is present. -/
theorem c4_role_exclusive (env : Env) (cfg : Config) (si : JVal)
    (sn qp qName : String) (qchildren : List Entry) (fn : String) (c : Bytes)
    (fields q : List (String × JVal))
    (hq : lookup qchildren "question.json" = some (.file fn c))
    (hload : env.jsonLoad c = .ok (.obj fields))
    (hph : getKey fields "photo" = none)
    (hqph : getKey fields "quizPhoto" = none)
    (hok : (processQuestion env cfg si sn qp (.dir qName qchildren)).2
      = .ok (some (.obj q))) :
    (getKey q "photo" = none ∨ getKey q "quizPhoto" = none)
    ∧ (∀ f0 rest, imageCandidates qchildren = f0 :: rest →
        ((getKey q "quizPhoto" ≠ none ↔
            pyStarts (pyLower (selectMain (f0 :: rest) f0).name) "quiz" = true)
         ∧ (getKey q "photo" ≠ none ↔
            pyStarts (pyLower (selectMain (f0 :: rest) f0).name) "quiz" = false)))
    ∧ (imageCandidates qchildren = [] →
        getKey q "photo" = none ∧ getKey q "quizPhoto" = none) := by
  simp only [processQuestion, hq, hload, jSet] at hok
  cases hg : jGet si "code" with
  | error u => rw [hg] at hok; simp at hok
  | ok code =>
    rw [hg] at hok
    simp only [jSet] at hok
    rcases hat : attachImage env cfg sn qName (qp ++ "/" ++ qName)
        (.obj (setKey (setKey fields "id" (.str qName)) "subjectCode" code))
        qchildren with ⟨lg, r⟩
    rw [hat] at hok
    cases r with
    | error u => simp at hok
    | ok v3 =>
      simp at hok
      subst hok
      have hshape := attachImage_shape env cfg sn qName (qp ++ "/" ++ qName)
        (setKey (setKey fields "id" (.str qName)) "subjectCode" code) qchildren q
        (by rw [hat])
      have hpo2 : getKey (setKey (setKey fields "id" (.str qName)) "subjectCode" code)
          "photo" = none := by
        rw [getKey_setKey_ne _ _ _ _ (by decide), getKey_setKey_ne _ _ _ _ (by decide), hph]
      have hqo2 : getKey (setKey (setKey fields "id" (.str qName)) "subjectCode" code)
          "quizPhoto" = none := by
        rw [getKey_setKey_ne _ _ _ _ (by decide), getKey_setKey_ne _ _ _ _ (by decide), hqph]
      rcases hshape with ⟨hcand, hqo⟩ | ⟨f0, rest, value, hcand, hqe⟩
      · subst hqo
        refine ⟨Or.inl hpo2, ?_, fun _ => ⟨hpo2, hqo2⟩⟩
        intro f0 rest hc'
        rw [hcand] at hc'
        cases hc'
      · subst hqe
        cases hrole : pyStarts (pyLower (selectMain (f0 :: rest) f0).name) "quiz" with
        | false =>
          have hfld : roleField (selectMain (f0 :: rest) f0) = "photo" := by
            simp [roleField, hrole]
          rw [hfld]
          have hgq : getKey (setKey (setKey (setKey fields "id" (.str qName))
              "subjectCode" code) "photo" (.str value)) "quizPhoto" = none := by
            rw [getKey_setKey_ne _ _ _ _ (by decide), hqo2]
          have hgp : getKey (setKey (setKey (setKey fields "id" (.str qName))
              "subjectCode" code) "photo" (.str value)) "photo" = some (.str value) :=
            getKey_setKey_same _ _ _
          refine ⟨Or.inr hgq, ?_, ?_⟩
          · intro f0' rest' hc'
            rw [hcand] at hc'
            injection hc' with h1 h2
            subst h1; subst h2
            constructor
            · simp [hgq, hrole]
            · simp [hgp, hrole]
          · intro hc0
            rw [hcand] at hc0
            cases hc0
        | true =>
          have hfld : roleField (selectMain (f0 :: rest) f0) = "quizPhoto" := by
            simp [roleField, hrole]
          rw [hfld]
          have hgp : getKey (setKey (setKey (setKey fields "id" (.str qName))
              "subjectCode" code) "quizPhoto" (.str value)) "photo" = none := by
            rw [getKey_setKey_ne _ _ _ _ (by decide), hpo2]
          have hgq : getKey (setKey (setKey (setKey fields "id" (.str qName))
              "subjectCode" code) "quizPhoto" (.str value)) "quizPhoto" = some (.str value) :=
            getKey_setKey_same _ _ _
          refine ⟨Or.inl hgp, ?_, ?_⟩
          · intro f0' rest' hc'
            rw [hcand] at hc'
            injection hc' with h1 h2
            subst h1; subst h2
            constructor
            · simp [hgq, hrole]
            · simp [hgp, hrole]
          · intro hc0
            rw [hcand] at hc0
            cases hc0

theorem c4_witness :
    (getKey [("text", .str "t"), ("id", .str "q1"), ("subjectCode", .str "MAT"),
        ("quizPhoto", .str "math/questions/q1/quiz.png")] "photo" = none ∨
     getKey [("text", .str "t"), ("id", .str "q1"), ("subjectCode", .str "MAT"),
        ("quizPhoto", .str "math/questions/q1/quiz.png")] "quizPhoto" = none) :=
  (c4_role_exclusive demoEnv ⟨none, false, 100⟩ (.obj [("code", .str "MAT")])
    "math" "questions/math/questions" "q1"
    [Entry.file "question.json" (strBytes "\x7b\"text\": \"2+2?\"\x7d"),
      Entry.file "quiz.png" [1]]
    "question.json" (strBytes "\x7b\"text\": \"2+2?\"\x7d")
    [("text", .str "2+2?")]
    [("text", .str "2+2?"), ("id", .str "q1"), ("subjectCode", .str "MAT"),
      ("quizPhoto", .str "math/questions/q1/quiz.png")]
    rfl rfl rfl rfl rfl).1

end CvutOtazky
namespace CvutOtazky

/-- A log line printed for one listed entry appears in the concatenated log
of the whole listing. -/
theorem mem_foldr_logs (f : Entry → List String) (l : List Entry) (e : Entry)
    (x : String) (he : e ∈ l) (hx : x ∈ f e) :
    x ∈ l.foldr (fun d acc => f d ++ acc) [] := by
  induction l with
  | nil => cases he
  | cons y ys ih =>
    rcases List.mem_cons.mp he with heq | hmem
    · subst heq
      exact List.mem_append.mpr (Or.inl hx)
    · exact List.mem_append.mpr (Or.inr (ih hmem))

/-- When no entry of an (already sorted) question listing raises, the fold
returns all the per-entry logs concatenated in order, and succeeds with
exactly the records the entries produce, in order. -/
theorem processQuestionsGo_char (env : Env) (cfg : Config) (si : JVal)
    (sn qp : String) (l : List Entry)
    (h : ∀ e ∈ l, (processQuestion env cfg si sn qp e).2 ≠ .error ()) :
    processQuestionsGo env cfg si sn qp l =
      (l.foldr (fun e acc => (processQuestion env cfg si sn qp e).1 ++ acc) [],
       .ok (l.filterMap (fun e =>
         match (processQuestion env cfg si sn qp e).2 with
         | .ok r? => r?
         | .error _ => none))) := by
  induction l with
  | nil => rfl
  | cons e rest ih =>
    have he := h e (List.mem_cons_self e rest)
    rcases hx : processQuestion env cfg si sn qp e with ⟨lg, r⟩
    cases r with
    | error u => rw [hx] at he; exact absurd rfl he
    | ok r? =>
      have ih' := ih (fun x hmem => h x (List.mem_cons_of_mem e hmem))
      simp only [processQuestionsGo, hx, ih', List.foldr_cons, List.filterMap_cons]
      cases r? <;> simp [hx]

/-- C8: given that no question-directory entry raises an uncaught exception,
a malformed question.json is logged with the offending path and only that
question is omitted: the subject's fold still succeeds, its questions are
exactly the records of the sorted entries that produce one (those whose
question.json parses yield a record; those that fail to parse yield none and
only the log line), in sorted order. -/
theorem c8_malformed_question_isolated (env : Env) (cfg : Config) (si : JVal)
    (sn qp : String) (children : List Entry)
    (h : ∀ e ∈ children, (processQuestion env cfg si sn qp e).2 ≠ .error ()) :
    (processQuestions env cfg si sn qp children =
      ((sortByName children).foldr
        (fun e acc => (processQuestion env cfg si sn qp e).1 ++ acc) [],
       .ok ((sortByName children).filterMap (fun e =>
         match (processQuestion env cfg si sn qp e).2 with
         | .ok r? => r?
         | .error _ => none))))
    ∧ (∀ qName qchildren fn c, (Entry.dir qName qchildren) ∈ children →
        lookup qchildren "question.json" = some (.file fn c) →
        env.jsonLoad c = .error () →
        processQuestion env cfg si sn qp (.dir qName qchildren) =
          (["Error decoding JSON in " ++ qp ++ "/" ++ qName ++ "/question.json"],
            .ok none)
        ∧ ("Error decoding JSON in " ++ qp ++ "/" ++ qName ++ "/question.json")
            ∈ (processQuestions env cfg si sn qp children).1)
    ∧ (∀ qName qchildren fn c v, (Entry.dir qName qchildren) ∈ children →
        lookup qchildren "question.json" = some (.file fn c) →
        env.jsonLoad c = .ok v →
        ∃ r, (processQuestion env cfg si sn qp (.dir qName qchildren)).2 =
          .ok (some r)) := by
  have hsorted : ∀ e ∈ sortByName children,
      (processQuestion env cfg si sn qp e).2 ≠ .error () :=
    fun e he => h e ((mem_sortByName e children).mp he)
  have hchar := processQuestionsGo_char env cfg si sn qp (sortByName children) hsorted
  refine ⟨hchar, ?_, ?_⟩
  · intro qName qchildren fn c hmem hq hload
    have hpq : processQuestion env cfg si sn qp (.dir qName qchildren) =
        (["Error decoding JSON in " ++ qp ++ "/" ++ qName ++ "/question.json"],
          .ok none) := by
      simp [processQuestion, hq, hload]
    refine ⟨hpq, ?_⟩
    show _ ∈ (processQuestions env cfg si sn qp children).1
    rw [show processQuestions env cfg si sn qp children =
      processQuestionsGo env cfg si sn qp (sortByName children) from rfl, hchar]
    exact mem_foldr_logs (fun d => (processQuestion env cfg si sn qp d).1)
      (sortByName children) (.dir qName qchildren) _
      ((mem_sortByName _ children).mpr hmem) (by simp [hpq])
  · intro qName qchildren fn c v hmem hq hload
    have hne := h _ hmem
    cases hv : jSet v "id" (.str qName) with
    | error u =>
      exact absurd (by simp [processQuestion, hq, hload, hv]) hne
    | ok v1 =>
      cases hg : jGet si "code" with
      | error u =>
        exact absurd (by simp [processQuestion, hq, hload, hv, hg]) hne
      | ok code =>
        cases hs2 : jSet v1 "subjectCode" code with
        | error u =>
          exact absurd (by simp [processQuestion, hq, hload, hv, hg, hs2]) hne
        | ok v2 =>
          rcases hat : attachImage env cfg sn qName (qp ++ "/" ++ qName) v2 qchildren
            with ⟨lg, r⟩
          cases r with
          | error u =>
            exact absurd (by simp [processQuestion, hq, hload, hv, hg, hs2, hat]) hne
          | ok v3 =>
            exact ⟨v3, by simp [processQuestion, hq, hload, hv, hg, hs2, hat]⟩

theorem c8_witness :
    processQuestions demoEnv ⟨none, false, 100⟩ (.obj [("code", .str "MAT")])
      "math" "questions/math/questions"
      [Entry.dir "q2" [Entry.file "question.json" (strBytes "oops")],
       Entry.dir "q1" [Entry.file "question.json" (strBytes "\x7b\"text\": \"2+2?\"\x7d")]] =
      (["Error decoding JSON in questions/math/questions/q2/question.json"],
       .ok [.obj [("text", .str "2+2?"), ("id", .str "q1"),
         ("subjectCode", .str "MAT")]]) :=
  (c8_malformed_question_isolated demoEnv ⟨none, false, 100⟩ (.obj [("code", .str "MAT")])
    "math" "questions/math/questions"
    [Entry.dir "q2" [Entry.file "question.json" (strBytes "oops")],
     Entry.dir "q1" [Entry.file "question.json" (strBytes "\x7b\"text\": \"2+2?\"\x7d")]]
    (by
      intro e he
      fin_cases he <;> exact fun hc => Except.noConfusion hc)).1

end CvutOtazky
